import Mathlib

/-!
Verification of `testopenlineage/dbt/wait-for-postgres.py`.

The script retries `psycopg2.connect(...)` up to `max_retries = 30` times,
sleeping `retry_interval = 2` seconds after each attempt that raises
`psycopg2.OperationalError`, and returns `True` as soon as a connection can
be opened and closed, `False` after exhausting all attempts.

The external database client is modelled by an environment
`env : Nat → AttemptOutcome` giving, for each 0-based loop iteration, how the
`psycopg2.connect` / `conn.close()` calls behave on that iteration.  The
probe is embedded as a function producing the trace of observable events
(connection attempts, opened and closed handles, printed lines, sleeps)
together with its result: `Except.ok b` for a normal return of the boolean
`b`, `Except.error` for an uncaught exception propagating to the caller.
-/

namespace WaitForPostgres

/-- Keyword arguments of the `psycopg2.connect` call: host, database, user,
password. -/
structure ConnConfig where
  host : String
  database : String
  user : String
  password : String
deriving DecidableEq, Repr

/-- The hardcoded connection configuration in `wait-for-postgres.py`. -/
def dbtConfig : ConnConfig :=
  { host := "postgres", database := "dbt_test", user := "dbt_user",
    password := "dbt_password" }

/-- Behaviour of the external client on one loop iteration.  `connect` either
returns a handle or raises; when it returns, `close` either succeeds or
raises.  `psycopg2.OperationalError` is the exception class named by the
`except` clause; any other exception class is "other". -/
inductive AttemptOutcome where
  /-- `connect` returns a handle and `close` succeeds. -/
  | ok : AttemptOutcome
  /-- `connect` raises `psycopg2.OperationalError`. -/
  | connectFail : AttemptOutcome
  /-- `connect` returns a handle, `close` raises `psycopg2.OperationalError`. -/
  | closeFail : AttemptOutcome
  /-- `connect` raises an exception other than `OperationalError`. -/
  | connectOther : AttemptOutcome
  /-- `connect` returns a handle, `close` raises an exception other than
  `OperationalError`. -/
  | closeOther : AttemptOutcome
deriving DecidableEq, Repr

/-- The outcome is caught by the `except psycopg2.OperationalError` clause. -/
def retryable : AttemptOutcome → Bool
  | .connectFail => true
  | .closeFail => true
  | _ => false

/-- The outcome raises an exception not caught by the `except` clause. -/
def fatal : AttemptOutcome → Bool
  | .connectOther => true
  | .closeOther => true
  | _ => false

/-- An uncaught Python exception propagating out of `wait_for_postgres`. -/
inductive PyExn where
  | uncaught : PyExn
deriving DecidableEq, Repr

instance : DecidableEq (Except PyExn Bool) := fun x y =>
  match x, y with
  | .ok a, .ok b =>
    if h : a = b then .isTrue (by rw [h])
    else .isFalse (fun hc => h (Except.ok.inj hc))
  | .error a, .error b =>
    if h : a = b then .isTrue (by rw [h])
    else .isFalse (fun hc => h (Except.error.inj hc))
  | .ok _, .error _ => .isFalse (fun hc => Except.noConfusion hc)
  | .error _, .ok _ => .isFalse (fun hc => Except.noConfusion hc)

/-- Observable events of a run of `wait_for_postgres`. -/
inductive Event where
  /-- The call `psycopg2.connect(host=..., database=..., user=..., password=...)`. -/
  | connectAttempt : ConnConfig → Event
  /-- `connect` returned: a connection handle is now open. -/
  | openConn : Event
  /-- `conn.close()` returned: the handle is closed. -/
  | closeConn : Event
  /-- The line `PostgreSQL is ready!`. -/
  | printReady : Event
  /-- The line `Waiting for PostgreSQL... (attempt n/total)`. -/
  | printWaiting : Nat → Nat → Event
  /-- `time.sleep(secs)`. -/
  | sleepPause : Nat → Event
  /-- The line `Failed to connect to PostgreSQL`. -/
  | printFailed : Event
deriving DecidableEq, Repr

/-- The body of the `for attempt in range(max_retries)` loop, from iteration
`attempt` with `remaining` iterations left.  Each iteration calls `connect`;
on success it closes the handle, prints the ready line and returns `True`; on
`OperationalError` (from `connect` or `close`) it prints the waiting line,
sleeps, and continues; any other exception propagates.  When no iterations
remain, the failure line is printed and `False` returned. -/
def runAux (cfg : ConnConfig) (env : Nat → AttemptOutcome)
    (maxRetries interval : Nat) : Nat → Nat → List Event × Except PyExn Bool
  | _, 0 => ([.printFailed], .ok false)
  | attempt, remaining + 1 =>
    match env attempt with
    | .ok => ([.connectAttempt cfg, .openConn, .closeConn, .printReady], .ok true)
    | .connectFail =>
      (.connectAttempt cfg :: .printWaiting (attempt + 1) maxRetries ::
          .sleepPause interval ::
          (runAux cfg env maxRetries interval (attempt + 1) remaining).1,
        (runAux cfg env maxRetries interval (attempt + 1) remaining).2)
    | .closeFail =>
      (.connectAttempt cfg :: .openConn ::
          .printWaiting (attempt + 1) maxRetries :: .sleepPause interval ::
          (runAux cfg env maxRetries interval (attempt + 1) remaining).1,
        (runAux cfg env maxRetries interval (attempt + 1) remaining).2)
    | .connectOther => ([.connectAttempt cfg], .error .uncaught)
    | .closeOther => ([.connectAttempt cfg, .openConn], .error .uncaught)

/-- The probe with explicit configuration, attempt bound and interval (the
`probe(config, max_attempts, interval_seconds)` contract): run the loop from
iteration 0 with `maxRetries` iterations available. -/
def probeLoop (cfg : ConnConfig) (env : Nat → AttemptOutcome)
    (maxRetries interval : Nat) : List Event × Except PyExn Bool :=
  runAux cfg env maxRetries interval 0 maxRetries

/-- `max_retries = 30` in `wait_for_postgres`. -/
def max_retries : Nat := 30

/-- `retry_interval = 2` in `wait_for_postgres`. -/
def retry_interval : Nat := 2

/-- `wait_for_postgres()` as written: the loop with the hardcoded
configuration, `max_retries = 30` and `retry_interval = 2`. -/
def wait_for_postgres (env : Nat → AttemptOutcome) :
    List Event × Except PyExn Bool :=
  probeLoop dbtConfig env max_retries retry_interval

/-- The `if __name__ == "__main__": wait_for_postgres()` entry point: the
boolean result is discarded, so the interpreter exits with status 0 on any
normal return; an uncaught exception propagates to the interpreter instead. -/
def mainExit (env : Nat → AttemptOutcome) : Except PyExn Nat :=
  match (wait_for_postgres env).2 with
  | .ok _ => .ok 0
  | .error e => .error e

/-- Event classifiers used to count observables of a trace. -/
def isAttempt : Event → Bool
  | .connectAttempt _ => true
  | _ => false

/-- The event is an opened connection handle. -/
def isOpen : Event → Bool
  | .openConn => true
  | _ => false

/-- The event is a closed connection handle. -/
def isClose : Event → Bool
  | .closeConn => true
  | _ => false

/-- The event is the ready line. -/
def isReady : Event → Bool
  | .printReady => true
  | _ => false

/-- The event is a waiting line. -/
def isWaiting : Event → Bool
  | .printWaiting _ _ => true
  | _ => false

/-- The event is a sleep. -/
def isPause : Event → Bool
  | .sleepPause _ => true
  | _ => false

/-- The event is the failure line. -/
def isFailedMsg : Event → Bool
  | .printFailed => true
  | _ => false

/-- Number of `psycopg2.connect` calls in a trace. -/
def countAttempts (tr : List Event) : Nat := tr.countP isAttempt

/-- Number of opened connection handles in a trace. -/
def countOpens (tr : List Event) : Nat := tr.countP isOpen

/-- Number of closed connection handles in a trace. -/
def countCloses (tr : List Event) : Nat := tr.countP isClose

/-- Number of `PostgreSQL is ready!` lines in a trace. -/
def countReady (tr : List Event) : Nat := tr.countP isReady

/-- Number of `Waiting for PostgreSQL...` lines in a trace. -/
def countWaiting (tr : List Event) : Nat := tr.countP isWaiting

/-- Number of sleeps in a trace. -/
def countPauses (tr : List Event) : Nat := tr.countP isPause

/-- Number of `Failed to connect to PostgreSQL` lines in a trace. -/
def countFailedMsg (tr : List Event) : Nat := tr.countP isFailedMsg

/-- The waiting lines of a trace, in order. -/
def waitingLines (tr : List Event) : List Event := tr.filter isWaiting

/-- The events of `k` consecutive retried (caught) iterations starting at
iteration `a`: each iteration contributes a connection attempt, an open
handle when the failure came from `close`, a waiting line and a sleep. -/
def retryTrace (cfg : ConnConfig) (env : Nat → AttemptOutcome)
    (maxRetries interval : Nat) : Nat → Nat → List Event
  | _, 0 => []
  | a, k + 1 =>
    (if env a = .closeFail then
        [Event.connectAttempt cfg, .openConn, .printWaiting (a + 1) maxRetries,
          .sleepPause interval]
      else
        [Event.connectAttempt cfg, .printWaiting (a + 1) maxRetries,
          .sleepPause interval]) ++
      retryTrace cfg env maxRetries interval (a + 1) k

/-- An environment on which every `connect` call raises `OperationalError`. -/
def envAllFail : Nat → AttemptOutcome := fun _ => .connectFail

/-- An environment on which every `connect` and `close` call succeeds. -/
def envAllOk : Nat → AttemptOutcome := fun _ => .ok

/-- An environment failing the first two iterations, then succeeding. -/
def envFailTwiceThenOk : Nat → AttemptOutcome := fun i =>
  if i < 2 then .connectFail else .ok

/-- An environment failing once with `OperationalError`, then raising a
different exception class. -/
def envFailThenOther : Nat → AttemptOutcome := fun i =>
  if i = 0 then .connectFail else .connectOther

/-- An environment extensionally, but not syntactically, equal to
`envAllFail`. -/
def envAllFailAlt : Nat → AttemptOutcome := fun i =>
  if 0 ≤ i then .connectFail else .ok

/-- An environment whose second iteration opens a connection whose `close`
raises `OperationalError`; the third iteration succeeds. -/
def envCloseFailSecond : Nat → AttemptOutcome := fun i =>
  if i = 0 then .connectFail else if i = 1 then .closeFail else .ok

/-- An environment on which every `connect` succeeds and every `close`
raises `OperationalError`. -/
def envAllCloseFail : Nat → AttemptOutcome := fun _ => .closeFail

/-- An environment on which every `connect` call raises an exception other
than `OperationalError`. -/
def envAllOther : Nat → AttemptOutcome := fun _ => .connectOther

theorem runAux_zero (cfg : ConnConfig) (env : Nat → AttemptOutcome)
    (m iv a : Nat) : runAux cfg env m iv a 0 = ([.printFailed], .ok false) :=
  rfl

theorem retryTrace_countP (cfg : ConnConfig) (env : Nat → AttemptOutcome)
    (m iv : Nat) : ∀ k a,
    (retryTrace cfg env m iv a k).countP isAttempt = k ∧
    (retryTrace cfg env m iv a k).countP isPause = k ∧
    (retryTrace cfg env m iv a k).countP isWaiting = k ∧
    (retryTrace cfg env m iv a k).countP isClose = 0 ∧
    (retryTrace cfg env m iv a k).countP isReady = 0 ∧
    (retryTrace cfg env m iv a k).countP isFailedMsg = 0 := by
  intro k
  induction k with
  | zero =>
    intro a
    simp [retryTrace]
  | succ n ih =>
    intro a
    obtain ⟨h1, h2, h3, h4, h5, h6⟩ := ih (a + 1)
    by_cases h : env a = .closeFail <;>
      simp [retryTrace, h, List.countP_append, List.countP_cons,
        isAttempt, isPause, isWaiting, isClose, isReady, isFailedMsg,
        h1, h2, h3, h4, h5, h6, Nat.add_comm]

theorem runAux_decomp (cfg : ConnConfig) (env : Nat → AttemptOutcome)
    (m iv : Nat) : ∀ k r a, k ≤ r →
    (∀ i, i < k → retryable (env (a + i)) = true) →
    runAux cfg env m iv a r =
      (retryTrace cfg env m iv a k ++ (runAux cfg env m iv (a + k) (r - k)).1,
        (runAux cfg env m iv (a + k) (r - k)).2) := by
  intro k
  induction k with
  | zero =>
    intro r a _ _
    simp [retryTrace]
  | succ n ih =>
    intro r a hkr hret
    obtain ⟨s, rfl⟩ : ∃ s, r = s + 1 := ⟨r - 1, by omega⟩
    have h0 : retryable (env a) = true := by
      have := hret 0 (Nat.succ_pos n)
      simpa using this
    have hrec := ih s (a + 1) (by omega) (fun i hi => by
      have h := hret (i + 1) (by omega)
      have hE : a + 1 + i = a + (i + 1) := by omega
      rw [hE]
      exact h)
    have e1 : a + (n + 1) = a + 1 + n := by omega
    have e2 : s + 1 - (n + 1) = s - n := by omega
    cases henv : env a with
    | ok =>
      rw [henv] at h0
      simp [retryable] at h0
    | connectOther =>
      rw [henv] at h0
      simp [retryable] at h0
    | closeOther =>
      rw [henv] at h0
      simp [retryable] at h0
    | connectFail =>
      simp only [runAux, henv, retryTrace, e1, e2, hrec]
      simp
    | closeFail =>
      simp only [runAux, henv, retryTrace, e1, e2, hrec]
      simp

theorem runAux_attempts_le (cfg : ConnConfig) (env : Nat → AttemptOutcome)
    (m iv : Nat) : ∀ r a,
    (runAux cfg env m iv a r).1.countP isAttempt ≤ r := by
  intro r
  induction r with
  | zero =>
    intro a
    simp [runAux, isAttempt]
  | succ n ih =>
    intro a
    have h := ih (a + 1)
    cases henv : env a <;>
      simp [runAux, henv, List.countP_cons, isAttempt, isOpen] <;> omega

theorem runAux_attempts_of_false (cfg : ConnConfig) (env : Nat → AttemptOutcome)
    (m iv : Nat) : ∀ r a, (runAux cfg env m iv a r).2 = .ok false →
    (runAux cfg env m iv a r).1.countP isAttempt = r := by
  intro r
  induction r with
  | zero =>
    intro a _
    simp [runAux, isAttempt]
  | succ n ih =>
    intro a hres
    cases henv : env a
    case ok => simp [runAux, henv] at hres
    case connectOther => simp [runAux, henv] at hres
    case closeOther => simp [runAux, henv] at hres
    case connectFail =>
      simp only [runAux, henv] at hres ⊢
      simp [List.countP_cons, isAttempt, ih (a + 1) hres]
    case closeFail =>
      simp only [runAux, henv] at hres ⊢
      simp [List.countP_cons, isAttempt, isOpen, ih (a + 1) hres]

theorem runAux_no_fatal_returns (cfg : ConnConfig) (env : Nat → AttemptOutcome)
    (m iv : Nat) : ∀ r a, (∀ i, a ≤ i → i < a + r → fatal (env i) = false) →
    ∃ b, (runAux cfg env m iv a r).2 = .ok b := by
  intro r
  induction r with
  | zero =>
    intro a _
    exact ⟨false, rfl⟩
  | succ n ih =>
    intro a hnf
    have hrec := ih (a + 1) (fun i h1 h2 => hnf i (by omega) (by omega))
    have ha : fatal (env a) = false := hnf a (Nat.le_refl a) (by omega)
    cases henv : env a
    case ok => exact ⟨true, by simp [runAux, henv]⟩
    case connectFail => simpa [runAux, henv] using hrec
    case closeFail => simpa [runAux, henv] using hrec
    case connectOther => rw [henv] at ha; simp [fatal] at ha
    case closeOther => rw [henv] at ha; simp [fatal] at ha

theorem runAux_success_suffix (cfg : ConnConfig) (env : Nat → AttemptOutcome)
    (m iv : Nat) : ∀ r a, (runAux cfg env m iv a r).2 = .ok true →
    ∃ pre, (runAux cfg env m iv a r).1 =
      pre ++ [Event.connectAttempt cfg, .openConn, .closeConn, .printReady] := by
  intro r
  induction r with
  | zero =>
    intro a hres
    simp [runAux] at hres
  | succ n ih =>
    intro a hres
    cases henv : env a
    case ok => exact ⟨[], by simp [runAux, henv]⟩
    case connectOther => simp [runAux, henv] at hres
    case closeOther => simp [runAux, henv] at hres
    case connectFail =>
      simp only [runAux, henv] at hres ⊢
      obtain ⟨pre, hpre⟩ := ih (a + 1) hres
      exact ⟨Event.connectAttempt cfg :: .printWaiting (a + 1) m ::
        .sleepPause iv :: pre, by simp [hpre]⟩
    case closeFail =>
      simp only [runAux, henv] at hres ⊢
      obtain ⟨pre, hpre⟩ := ih (a + 1) hres
      exact ⟨Event.connectAttempt cfg :: .openConn :: .printWaiting (a + 1) m ::
        .sleepPause iv :: pre, by simp [hpre]⟩

theorem runAux_attempts_pos_of_true (cfg : ConnConfig)
    (env : Nat → AttemptOutcome) (m iv : Nat) : ∀ r a,
    (runAux cfg env m iv a r).2 = .ok true →
    1 ≤ (runAux cfg env m iv a r).1.countP isAttempt := by
  intro r a hres
  obtain ⟨pre, hpre⟩ := runAux_success_suffix cfg env m iv r a hres
  simp [hpre, List.countP_append, List.countP_cons, isAttempt]

theorem runAux_line_counts (cfg : ConnConfig) (env : Nat → AttemptOutcome)
    (m iv : Nat) : ∀ r a,
    (runAux cfg env m iv a r).1.countP isReady =
      (if (runAux cfg env m iv a r).2 = .ok true then 1 else 0) ∧
    (runAux cfg env m iv a r).1.countP isFailedMsg =
      (if (runAux cfg env m iv a r).2 = .ok false then 1 else 0) ∧
    (runAux cfg env m iv a r).1.countP isAttempt =
      (runAux cfg env m iv a r).1.countP isWaiting +
      (if (runAux cfg env m iv a r).2 = .ok false then 0 else 1) ∧
    (runAux cfg env m iv a r).1.countP isPause =
      (runAux cfg env m iv a r).1.countP isWaiting := by
  intro r
  induction r with
  | zero =>
    intro a
    simp [runAux, isReady, isFailedMsg, isAttempt, isWaiting, isPause]
  | succ n ih =>
    intro a
    obtain ⟨h1, h2, h3, h4⟩ := ih (a + 1)
    cases henv : env a
    case ok =>
      simp [runAux, henv, List.countP_cons, isReady, isFailedMsg, isAttempt,
        isWaiting, isPause, isOpen, isClose]
    case connectOther =>
      simp [runAux, henv, List.countP_cons, isReady, isFailedMsg, isAttempt,
        isWaiting, isPause]
    case closeOther =>
      simp [runAux, henv, List.countP_cons, isReady, isFailedMsg, isAttempt,
        isWaiting, isPause, isOpen]
    case connectFail =>
      cases hres : (runAux cfg env m iv (a + 1) n).2 with
      | ok b =>
        cases b with
        | false =>
          simp [runAux, henv, hres, List.countP_cons, isReady, isFailedMsg,
            isAttempt, isWaiting, isPause] at h1 h2 h3 h4 ⊢
          exact ⟨h1, h2, h3, h4⟩
        | true =>
          simp [runAux, henv, hres, List.countP_cons, isReady, isFailedMsg,
            isAttempt, isWaiting, isPause] at h1 h2 h3 h4 ⊢
          exact ⟨h1, h2, h3, h4⟩
      | error e =>
        simp [runAux, henv, hres, List.countP_cons, isReady, isFailedMsg,
          isAttempt, isWaiting, isPause] at h1 h2 h3 h4 ⊢
        exact ⟨h1, h2, h3, h4⟩
    case closeFail =>
      cases hres : (runAux cfg env m iv (a + 1) n).2 with
      | ok b =>
        cases b with
        | false =>
          simp [runAux, henv, hres, List.countP_cons, isReady, isFailedMsg,
            isAttempt, isWaiting, isPause, isOpen] at h1 h2 h3 h4 ⊢
          exact ⟨h1, h2, h3, h4⟩
        | true =>
          simp [runAux, henv, hres, List.countP_cons, isReady, isFailedMsg,
            isAttempt, isWaiting, isPause, isOpen] at h1 h2 h3 h4 ⊢
          exact ⟨h1, h2, h3, h4⟩
      | error e =>
        simp [runAux, henv, hres, List.countP_cons, isReady, isFailedMsg,
          isAttempt, isWaiting, isPause, isOpen] at h1 h2 h3 h4 ⊢
        exact ⟨h1, h2, h3, h4⟩

theorem runAux_closes_le_opens (cfg : ConnConfig) (env : Nat → AttemptOutcome)
    (m iv : Nat) : ∀ r a,
    (runAux cfg env m iv a r).1.countP isClose ≤
      (runAux cfg env m iv a r).1.countP isOpen := by
  intro r
  induction r with
  | zero =>
    intro a
    simp [runAux, isClose, isOpen]
  | succ n ih =>
    intro a
    have h := ih (a + 1)
    cases henv : env a <;>
      simp [runAux, henv, List.countP_cons, isClose, isOpen] <;> omega

theorem runAux_balanced (cfg : ConnConfig) (env : Nat → AttemptOutcome)
    (m iv : Nat) : ∀ r a,
    (∀ i, a ≤ i → i < a + r → env i ≠ .closeFail ∧ env i ≠ .closeOther) →
    (runAux cfg env m iv a r).1.countP isOpen =
      (runAux cfg env m iv a r).1.countP isClose := by
  intro r
  induction r with
  | zero =>
    intro a _
    simp [runAux, isClose, isOpen]
  | succ n ih =>
    intro a hcl
    have h := ih (a + 1) (fun i h1 h2 => hcl i (by omega) (by omega))
    have ha := hcl a (Nat.le_refl a) (by omega)
    cases henv : env a
    case closeFail => exact absurd henv ha.1
    case closeOther => exact absurd henv ha.2
    all_goals simp [runAux, henv, List.countP_cons, isClose, isOpen, h]

theorem range_map_shift {α : Type} (f : Nat → α) : ∀ w a,
    (List.range (w + 1)).map (fun i => f (a + i)) =
      f a :: (List.range w).map (fun i => f (a + 1 + i)) := by
  intro w
  induction w with
  | zero =>
    intro a
    simp [List.range_succ]
  | succ n ih =>
    intro a
    have e : a + (n + 1) = a + 1 + n := by omega
    rw [List.range_succ, List.map_append, ih a, List.range_succ,
      List.map_append]
    simp [e]

theorem runAux_waiting_lines (cfg : ConnConfig) (env : Nat → AttemptOutcome)
    (m iv : Nat) : ∀ r a,
    waitingLines (runAux cfg env m iv a r).1 =
      (List.range ((runAux cfg env m iv a r).1.countP isWaiting)).map
        (fun i => Event.printWaiting (a + 1 + i) m) := by
  intro r
  induction r with
  | zero =>
    intro a
    simp [runAux, waitingLines, isWaiting]
  | succ n ih =>
    intro a
    have h := ih (a + 1)
    cases henv : env a
    case ok =>
      simp [runAux, henv, waitingLines, isWaiting, isAttempt, isOpen, isClose,
        isReady]
    case connectOther =>
      simp [runAux, henv, waitingLines, isWaiting, isAttempt]
    case closeOther =>
      simp [runAux, henv, waitingLines, isWaiting, isAttempt, isOpen]
    case connectFail =>
      simp only [runAux, henv]
      simp only [waitingLines, List.filter_cons, List.countP_cons, isWaiting,
        isAttempt, isPause] at h ⊢
      simp only [cond_true, cond_false, if_true, if_false] at h ⊢
      simp only [h]
      rw [Nat.add_zero, Nat.add_zero]
      exact (range_map_shift (fun t => Event.printWaiting t m) _ (a + 1)).symm
    case closeFail =>
      simp only [runAux, henv]
      simp only [waitingLines, List.filter_cons, List.countP_cons, isWaiting,
        isAttempt, isPause, isOpen] at h ⊢
      simp only [cond_true, cond_false, if_true, if_false] at h ⊢
      simp only [h]
      rw [Nat.add_zero, Nat.add_zero]
      exact (range_map_shift (fun t => Event.printWaiting t m) _ (a + 1)).symm

/-- C1 counterexample: with `max_attempts = 1` and a failing connection
attempt, the probe performs one pause, not zero: `time.sleep` runs inside
the `except` block after every failed attempt, including the last one, so
the claimed `max_attempts - 1` pauses (zero here) is wrong. -/
theorem C1_counterexample :
    (probeLoop dbtConfig envAllFail 1 2).2 = .ok false ∧
    countAttempts (probeLoop dbtConfig envAllFail 1 2).1 = 1 ∧
    countPauses (probeLoop dbtConfig envAllFail 1 2).1 = 1 ∧
    ¬ countPauses (probeLoop dbtConfig envAllFail 1 2).1 = 1 - 1 := by
  decide

/-- C1 (amended): for every run in which the connection attempt fails on all
iterations, the probe returns `false` after exactly `max_attempts` attempts
and exactly `max_attempts` pauses of the configured interval — the retry
interval is applied after every failed attempt, the last one included; in
particular `max_attempts = 1` yields `false` with one pause. -/
theorem C1_theorem (cfg : ConnConfig) (env : Nat → AttemptOutcome)
    (m iv : Nat) (h : ∀ i, i < m → env i = .connectFail) :
    (probeLoop cfg env m iv).2 = .ok false ∧
    countAttempts (probeLoop cfg env m iv).1 = m ∧
    countPauses (probeLoop cfg env m iv).1 = m := by
  have hd := runAux_decomp cfg env m iv m m 0 (Nat.le_refl m) (fun i hi => by
    have e : 0 + i = i := by omega
    rw [e, h i hi]
    rfl)
  have e0 : (0 : Nat) + m = m := by omega
  have em : m - m = 0 := by omega
  rw [e0, em, runAux_zero] at hd
  obtain ⟨t1, t2, t3, t4, t5, t6⟩ := retryTrace_countP cfg env m iv m 0
  refine ⟨?_, ?_, ?_⟩
  · simp only [probeLoop]
    rw [hd]
  · simp only [probeLoop, countAttempts]
    rw [hd]
    simp [List.countP_append, List.countP_cons, isAttempt, t1]
  · simp only [probeLoop, countPauses]
    rw [hd]
    simp [List.countP_append, List.countP_cons, isPause, t2]

/-- C1 witness: the amended statement at `max_attempts = 3` on an
environment that always fails. -/
theorem C1_witness :
    (probeLoop dbtConfig envAllFail 3 2).2 = .ok false ∧
    countAttempts (probeLoop dbtConfig envAllFail 3 2).1 = 3 ∧
    countPauses (probeLoop dbtConfig envAllFail 3 2).1 = 3 :=
  C1_theorem dbtConfig envAllFail 3 2 (fun _ _ => rfl)

/-- C2: if the connection attempt fails exactly `k` times (`k < max_attempts`)
and then succeeds, the probe returns `true` after exactly `k + 1` attempts and
exactly `k` pauses; the `k = 0` case is first-try success with one attempt and
zero pauses, and no further connection attempt occurs after the success. -/
theorem C2_theorem (cfg : ConnConfig) (env : Nat → AttemptOutcome)
    (m iv k : Nat) (hk : k < m) (hfail : ∀ i, i < k → env i = .connectFail)
    (hok : env k = .ok) :
    (probeLoop cfg env m iv).2 = .ok true ∧
    countAttempts (probeLoop cfg env m iv).1 = k + 1 ∧
    countPauses (probeLoop cfg env m iv).1 = k := by
  have hd := runAux_decomp cfg env m iv k m 0 (Nat.le_of_lt hk) (fun i hi => by
    have e : 0 + i = i := by omega
    rw [e, hfail i hi]
    rfl)
  have e0 : (0 : Nat) + k = k := by omega
  rw [e0] at hd
  obtain ⟨s, hs⟩ : ∃ s, m - k = s + 1 := ⟨m - k - 1, by omega⟩
  rw [hs] at hd
  have hstep : runAux cfg env m iv k (s + 1) =
      ([.connectAttempt cfg, .openConn, .closeConn, .printReady], .ok true) := by
    simp [runAux, hok]
  rw [hstep] at hd
  obtain ⟨t1, t2, t3, t4, t5, t6⟩ := retryTrace_countP cfg env m iv k 0
  refine ⟨?_, ?_, ?_⟩
  · simp only [probeLoop]
    rw [hd]
  · simp only [probeLoop, countAttempts]
    rw [hd]
    simp [List.countP_append, List.countP_cons, isAttempt, t1]
  · simp only [probeLoop, countPauses]
    rw [hd]
    simp [List.countP_append, List.countP_cons, isPause, t2]

/-- C2 witness: two failures then success, with `max_attempts = 4`: `true`
after 3 attempts and 2 pauses. -/
theorem C2_witness :
    (probeLoop dbtConfig envFailTwiceThenOk 4 2).2 = .ok true ∧
    countAttempts (probeLoop dbtConfig envFailTwiceThenOk 4 2).1 = 2 + 1 ∧
    countPauses (probeLoop dbtConfig envFailTwiceThenOk 4 2).1 = 2 :=
  C2_theorem dbtConfig envFailTwiceThenOk 4 2 2 (by decide)
    (fun i hi => by
      have : i < 2 := hi
      simp [envFailTwiceThenOk, this])
    (by decide)

/-- C3: exactly the `OperationalError` outcomes are caught and retried —
when no iteration raises a different exception class the probe always
returns a boolean (part one); when the first `j` iterations fail retryably
and iteration `j` raises any other exception class, that exception
propagates to the caller and the probe terminates early after exactly
`j + 1` connection attempts (part two). -/
theorem C3_theorem (cfg : ConnConfig) (env : Nat → AttemptOutcome)
    (m iv : Nat) :
    ((∀ i, i < m → fatal (env i) = false) →
      ∃ b, (probeLoop cfg env m iv).2 = .ok b) ∧
    (∀ j, j < m → (∀ i, i < j → env i = .connectFail) →
      fatal (env j) = true →
      (probeLoop cfg env m iv).2 = .error .uncaught ∧
      countAttempts (probeLoop cfg env m iv).1 = j + 1) := by
  constructor
  · intro hnf
    have h := runAux_no_fatal_returns cfg env m iv m 0
      (fun i _ h2 => hnf i (by omega))
    simpa [probeLoop] using h
  · intro j hj hpre hfat
    have hd := runAux_decomp cfg env m iv j m 0 (Nat.le_of_lt hj)
      (fun i hi => by
        have e : 0 + i = i := by omega
        rw [e, hpre i hi]
        rfl)
    have e0 : (0 : Nat) + j = j := by omega
    rw [e0] at hd
    obtain ⟨s, hs⟩ : ∃ s, m - j = s + 1 := ⟨m - j - 1, by omega⟩
    rw [hs] at hd
    obtain ⟨t1, t2, t3, t4, t5, t6⟩ := retryTrace_countP cfg env m iv j 0
    cases henv : env j with
    | ok =>
      rw [henv] at hfat
      simp [fatal] at hfat
    | connectFail =>
      rw [henv] at hfat
      simp [fatal] at hfat
    | closeFail =>
      rw [henv] at hfat
      simp [fatal] at hfat
    | connectOther =>
      have hstep : runAux cfg env m iv j (s + 1) =
          ([.connectAttempt cfg], .error .uncaught) := by
        simp [runAux, henv]
      rw [hstep] at hd
      constructor
      · simp only [probeLoop]
        rw [hd]
      · simp only [probeLoop, countAttempts]
        rw [hd]
        simp [List.countP_append, List.countP_cons, isAttempt, t1]
    | closeOther =>
      have hstep : runAux cfg env m iv j (s + 1) =
          ([.connectAttempt cfg, .openConn], .error .uncaught) := by
        simp [runAux, henv]
      rw [hstep] at hd
      constructor
      · simp only [probeLoop]
        rw [hd]
      · simp only [probeLoop, countAttempts]
        rw [hd]
        simp [List.countP_append, List.countP_cons, isAttempt, isOpen, t1]

/-- C3 witness: an all-retryable environment returns a boolean, and an
environment raising a non-`OperationalError` on its second iteration makes
the probe propagate the exception after exactly two attempts. -/
theorem C3_witness :
    (∃ b, (probeLoop dbtConfig envAllOk 2 0).2 = .ok b) ∧
    ((probeLoop dbtConfig envFailThenOther 3 0).2 = .error .uncaught ∧
      countAttempts (probeLoop dbtConfig envFailThenOther 3 0).1 = 1 + 1) :=
  ⟨(C3_theorem dbtConfig envAllOk 2 0).1 (by decide),
    (C3_theorem dbtConfig envFailThenOther 3 0).2 1 (by decide) (by decide)
      (by decide)⟩

/-- C4 counterexample: when `connect` succeeds but `conn.close()` raises
`OperationalError` (caught by the same `except` clause), a successfully
opened connection is never closed, yet the probe proceeds to its failure
path — so a connection handle does remain open, refuting the claim for
every run. -/
theorem C4_counterexample :
    countOpens (probeLoop dbtConfig envAllCloseFail 1 2).1 = 1 ∧
    countCloses (probeLoop dbtConfig envAllCloseFail 1 2).1 = 0 ∧
    (probeLoop dbtConfig envAllCloseFail 1 2).2 = .ok false := by
  decide

/-- C4 (amended): on every run in which `close` never raises, opened and
closed handles balance exactly on both the success and the failure path,
and whenever the probe returns `true` its trace ends with the connect
attempt, the open, the close and then the success message — so the
connection is closed after being opened and before the success message and
the return. -/
theorem C4_theorem (cfg : ConnConfig) (env : Nat → AttemptOutcome)
    (m iv : Nat)
    (h : ∀ i, i < m → env i ≠ .closeFail ∧ env i ≠ .closeOther) :
    countOpens (probeLoop cfg env m iv).1 =
      countCloses (probeLoop cfg env m iv).1 ∧
    ((probeLoop cfg env m iv).2 = .ok true →
      ∃ pre, (probeLoop cfg env m iv).1 =
        pre ++ [Event.connectAttempt cfg, .openConn, .closeConn,
          .printReady]) := by
  constructor
  · have hb := runAux_balanced cfg env m iv m 0 (fun i _ h2 => h i (by omega))
    simpa [probeLoop, countOpens, countCloses] using hb
  · intro hres
    simp only [probeLoop] at hres ⊢
    exact runAux_success_suffix cfg env m iv m 0 hres

/-- C4 witness: the amended statement on two failures then a clean success
with `max_attempts = 4`. -/
theorem C4_witness :
    countOpens (probeLoop dbtConfig envFailTwiceThenOk 4 2).1 =
      countCloses (probeLoop dbtConfig envFailTwiceThenOk 4 2).1 ∧
    ((probeLoop dbtConfig envFailTwiceThenOk 4 2).2 = .ok true →
      ∃ pre, (probeLoop dbtConfig envFailTwiceThenOk 4 2).1 =
        pre ++ [Event.connectAttempt dbtConfig, .openConn, .closeConn,
          .printReady]) :=
  C4_theorem dbtConfig envFailTwiceThenOk 4 2 (by decide)

/-- C5: for every sequence of attempt outcomes the probe prints exactly one
ready line iff it returns `true`, exactly one failure line iff it returns
`false`, and exactly one waiting line (and one pause) per failed attempt:
every connection attempt except a terminal successful or fatally-raising
one prints one waiting line, so attempts = waiting lines on the
all-attempts-failed path and attempts = waiting lines + 1 otherwise. -/
theorem C5_theorem (cfg : ConnConfig) (env : Nat → AttemptOutcome)
    (m iv : Nat) :
    countReady (probeLoop cfg env m iv).1 =
      (if (probeLoop cfg env m iv).2 = .ok true then 1 else 0) ∧
    countFailedMsg (probeLoop cfg env m iv).1 =
      (if (probeLoop cfg env m iv).2 = .ok false then 1 else 0) ∧
    countAttempts (probeLoop cfg env m iv).1 =
      countWaiting (probeLoop cfg env m iv).1 +
        (if (probeLoop cfg env m iv).2 = .ok false then 0 else 1) ∧
    countPauses (probeLoop cfg env m iv).1 =
      countWaiting (probeLoop cfg env m iv).1 := by
  have h := runAux_line_counts cfg env m iv m 0
  simpa [probeLoop, countReady, countFailedMsg, countAttempts, countWaiting,
    countPauses] using h

/-- C6 counterexample: on a run whose first iteration raises an exception
other than `OperationalError` (with `max_attempts = 3`), the loop ends
after a single attempt by propagating that exception — neither by early
success (the result is not `true`) nor by exhausting the counter (one
attempt was made, not three) — refuting the claimed dichotomy for every
sequence of attempt outcomes. -/
theorem C6_counterexample :
    (probeLoop dbtConfig envAllOther 3 2).2 = .error .uncaught ∧
    ¬ (probeLoop dbtConfig envAllOther 3 2).2 = .ok true ∧
    ¬ (probeLoop dbtConfig envAllOther 3 2).2 = .ok false ∧
    countAttempts (probeLoop dbtConfig envAllOther 3 2).1 = 1 ∧
    ¬ countAttempts (probeLoop dbtConfig envAllOther 3 2).1 = 3 := by
  decide

/-- C6 (amended): for every sequence of attempt outcomes the probe
terminates, its attempt count never exceeds `max_retries`, and the loop
ends in one of exactly three ways — by early success, by exhausting the
counter with exactly `max_retries` attempts and result `false`, or early
by an uncaught exception propagating out of an attempt. -/
theorem C6_theorem (cfg : ConnConfig) (env : Nat → AttemptOutcome)
    (m iv : Nat) :
    countAttempts (probeLoop cfg env m iv).1 ≤ m ∧
    ((probeLoop cfg env m iv).2 = .ok true ∨
      ((probeLoop cfg env m iv).2 = .ok false ∧
        countAttempts (probeLoop cfg env m iv).1 = m) ∨
      (probeLoop cfg env m iv).2 = .error .uncaught) := by
  constructor
  · have h := runAux_attempts_le cfg env m iv m 0
    simpa [probeLoop, countAttempts] using h
  · cases hres : (probeLoop cfg env m iv).2 with
    | ok b =>
      cases b with
      | true => exact Or.inl rfl
      | false =>
        refine Or.inr (Or.inl ⟨rfl, ?_⟩)
        have h := runAux_attempts_of_false cfg env m iv m 0
          (by simpa [probeLoop] using hres)
        simpa [probeLoop, countAttempts] using h
    | error e =>
      cases e
      exact Or.inr (Or.inr rfl)

/-- C7: the standalone entry point discards the boolean returned by
`wait_for_postgres` and sets no explicit exit code, so whenever the probe
returns normally — whether `true` or `false` — the process exit status is
the same, namely the interpreter default 0. -/
theorem C7_theorem (env1 env2 : Nat → AttemptOutcome) (b1 b2 : Bool)
    (h1 : (wait_for_postgres env1).2 = .ok b1)
    (h2 : (wait_for_postgres env2).2 = .ok b2) :
    mainExit env1 = mainExit env2 ∧ mainExit env1 = .ok 0 := by
  constructor
  · simp [mainExit, h1, h2]
  · simp [mainExit, h1]

/-- C7 witness: an always-succeeding run (probe returns `true`) and an
always-failing run (probe returns `false`) exit with the same status 0. -/
theorem C7_witness :
    mainExit envAllOk = mainExit envAllFail ∧ mainExit envAllOk = .ok 0 :=
  C7_theorem envAllOk envAllFail true false (by decide) (by decide)

/-- C8: the probe is deterministic in the external client's behaviour: two
runs presented with the same sequence of attempt outcomes agree on the
result, the number of attempts, the number of pauses, and the entire
sequence of emitted events. -/
theorem C8_theorem (cfg : ConnConfig) (env1 env2 : Nat → AttemptOutcome)
    (m iv : Nat) (h : ∀ i, env1 i = env2 i) :
    (probeLoop cfg env1 m iv).2 = (probeLoop cfg env2 m iv).2 ∧
    countAttempts (probeLoop cfg env1 m iv).1 =
      countAttempts (probeLoop cfg env2 m iv).1 ∧
    countPauses (probeLoop cfg env1 m iv).1 =
      countPauses (probeLoop cfg env2 m iv).1 ∧
    (probeLoop cfg env1 m iv).1 = (probeLoop cfg env2 m iv).1 := by
  have he : env1 = env2 := funext h
  rw [he]
  exact ⟨rfl, rfl, rfl, rfl⟩

/-- C8 witness: two syntactically different but pointwise equal
environments yield identical observables. -/
theorem C8_witness :
    (probeLoop dbtConfig envAllFail 3 2).2 =
      (probeLoop dbtConfig envAllFailAlt 3 2).2 ∧
    countAttempts (probeLoop dbtConfig envAllFail 3 2).1 =
      countAttempts (probeLoop dbtConfig envAllFailAlt 3 2).1 ∧
    countPauses (probeLoop dbtConfig envAllFail 3 2).1 =
      countPauses (probeLoop dbtConfig envAllFailAlt 3 2).1 ∧
    (probeLoop dbtConfig envAllFail 3 2).1 =
      (probeLoop dbtConfig envAllFailAlt 3 2).1 :=
  C8_theorem dbtConfig envAllFail envAllFailAlt 3 2
    (fun i => by simp [envAllFail, envAllFailAlt])

/-- C9: the waiting lines of any run of `wait_for_postgres` are exactly the
lines numbered 1, 2, ... consecutively (1-based, although the loop counter
is 0-based) against the fixed maximum `max_retries = 30`: the i-th failed
attempt prints attempt number i. -/
theorem C9_theorem (env : Nat → AttemptOutcome) :
    waitingLines (wait_for_postgres env).1 =
      (List.range (countWaiting (wait_for_postgres env).1)).map
        (fun i => Event.printWaiting (i + 1) max_retries) := by
  have h := runAux_waiting_lines dbtConfig env max_retries retry_interval
    max_retries 0
  simp only [wait_for_postgres, probeLoop, countWaiting]
  rw [h]
  have e : (fun i => Event.printWaiting (0 + 1 + i) max_retries) =
      (fun i => Event.printWaiting (i + 1) max_retries) := by
    funext i
    have e1 : 0 + 1 + i = i + 1 := by omega
    rw [e1]
  rw [e]

/-- C10: when iteration `j` opens a connection whose `close` raises
`OperationalError`, that error is absorbed as a retryable failure: the
trace shows the open followed by the waiting line and the pause for
iteration `j` (no close), the run continues with the remaining iterations,
strictly more handles are opened than closed, and if the probe eventually
returns `true` it does so on a later attempt than `j + 1`. -/
theorem C10_theorem (cfg : ConnConfig) (env : Nat → AttemptOutcome)
    (m iv j : Nat) (hj : j < m) (hpre : ∀ i, i < j → env i = .connectFail)
    (hcf : env j = .closeFail) :
    (probeLoop cfg env m iv).1 =
      retryTrace cfg env m iv 0 j ++
        Event.connectAttempt cfg :: .openConn :: .printWaiting (j + 1) m ::
          .sleepPause iv :: (runAux cfg env m iv (j + 1) (m - (j + 1))).1 ∧
    (probeLoop cfg env m iv).2 =
      (runAux cfg env m iv (j + 1) (m - (j + 1))).2 ∧
    countCloses (probeLoop cfg env m iv).1 <
      countOpens (probeLoop cfg env m iv).1 ∧
    ((probeLoop cfg env m iv).2 = .ok true →
      j + 1 < countAttempts (probeLoop cfg env m iv).1) := by
  have hd := runAux_decomp cfg env m iv j m 0 (Nat.le_of_lt hj)
    (fun i hi => by
      have e : 0 + i = i := by omega
      rw [e, hpre i hi]
      rfl)
  have e0 : (0 : Nat) + j = j := by omega
  rw [e0] at hd
  obtain ⟨s, hs⟩ : ∃ s, m - j = s + 1 := ⟨m - j - 1, by omega⟩
  have hsm : s = m - (j + 1) := by omega
  subst hsm
  rw [hs] at hd
  have hstep : runAux cfg env m iv j (m - (j + 1) + 1) =
      (Event.connectAttempt cfg :: .openConn :: .printWaiting (j + 1) m ::
        .sleepPause iv :: (runAux cfg env m iv (j + 1) (m - (j + 1))).1,
        (runAux cfg env m iv (j + 1) (m - (j + 1))).2) := by
    simp [runAux, hcf]
  rw [hstep] at hd
  obtain ⟨t1, t2, t3, t4, t5, t6⟩ := retryTrace_countP cfg env m iv j 0
  refine ⟨?_, ?_, ?_, ?_⟩
  · simp only [probeLoop]
    rw [hd]
  · simp only [probeLoop]
    rw [hd]
  · simp only [probeLoop, countCloses, countOpens]
    rw [hd]
    have hco := runAux_closes_le_opens cfg env m iv (m - (j + 1)) (j + 1)
    have hcClose : List.countP isClose (Event.connectAttempt cfg ::
        Event.openConn :: Event.printWaiting (j + 1) m ::
        Event.sleepPause iv ::
        (runAux cfg env m iv (j + 1) (m - (j + 1))).1) =
        List.countP isClose (runAux cfg env m iv (j + 1) (m - (j + 1))).1 := by
      simp [List.countP_cons, isClose]
    have hcOpen : List.countP isOpen (Event.connectAttempt cfg ::
        Event.openConn :: Event.printWaiting (j + 1) m ::
        Event.sleepPause iv ::
        (runAux cfg env m iv (j + 1) (m - (j + 1))).1) =
        List.countP isOpen (runAux cfg env m iv (j + 1) (m - (j + 1))).1
          + 1 := by
      simp [List.countP_cons, isOpen]
    simp only [List.countP_append, hcClose, hcOpen, t4]
    omega
  · intro hres
    simp only [probeLoop] at hres ⊢
    rw [hd] at hres
    have hpos := runAux_attempts_pos_of_true cfg env m iv (m - (j + 1))
      (j + 1) hres
    have hcAtt : List.countP isAttempt (Event.connectAttempt cfg ::
        Event.openConn :: Event.printWaiting (j + 1) m ::
        Event.sleepPause iv ::
        (runAux cfg env m iv (j + 1) (m - (j + 1))).1) =
        List.countP isAttempt (runAux cfg env m iv (j + 1) (m - (j + 1))).1
          + 1 := by
      simp [List.countP_cons, isAttempt]
    simp only [countAttempts]
    rw [hd]
    simp only [List.countP_append, hcAtt, t1]
    omega

/-- C10 witness: with `max_attempts = 3`, a first-iteration connect failure,
a second-iteration close failure and a third-iteration success, the probe
absorbs the close failure, retries and succeeds on attempt 3. -/
theorem C10_witness :
    (probeLoop dbtConfig envCloseFailSecond 3 0).1 =
      retryTrace dbtConfig envCloseFailSecond 3 0 0 1 ++
        Event.connectAttempt dbtConfig :: .openConn :: .printWaiting 2 3 ::
          .sleepPause 0 :: (runAux dbtConfig envCloseFailSecond 3 0 2 1).1 ∧
    (probeLoop dbtConfig envCloseFailSecond 3 0).2 =
      (runAux dbtConfig envCloseFailSecond 3 0 2 1).2 ∧
    countCloses (probeLoop dbtConfig envCloseFailSecond 3 0).1 <
      countOpens (probeLoop dbtConfig envCloseFailSecond 3 0).1 ∧
    ((probeLoop dbtConfig envCloseFailSecond 3 0).2 = .ok true →
      1 + 1 < countAttempts (probeLoop dbtConfig envCloseFailSecond 3 0).1) :=
  C10_theorem dbtConfig envCloseFailSecond 3 0 1 (by decide) (by decide)
    (by decide)

end WaitForPostgres
